import Mathlib

/-!
Shallow embedding of the Pixel-Art-Converter ("RetroBit") core pipeline:
the ordered-dither / palette math of `src/utils/dither.ts` and the
per-frame processing pipeline of `src/components/RetroCanvas.tsx`
(`processFrame`), together with theorems settling the spec claims.

JavaScript numbers are modelled as exact rationals (every constant in the
pipeline, such as 0.299 or 255/16, is exactly representable in ℚ, and no
operation in the pixel path can overflow the double range on the inputs
considered). Pixel channel values are naturals (bytes 0..255 as read from
an RGBA buffer).
-/

namespace RetroBit

/-- The dither matrix from `src/utils/dither.ts` (`bayerMatrix4x4`). -/
def bayerMatrix4x4 : List (List Nat) :=
  [[0, 8, 2, 10],
   [12, 4, 14, 6],
   [3, 11, 1, 9],
   [15, 7, 13, 5]]

/-- Function `getBayerValue` from `src/utils/dither.ts`:
`bayerMatrix4x4[y % 4][x % 4] / 16 * 255`. -/
def getBayerValue (x y : Nat) : ℚ :=
  let matrixSize := 4
  let value := (bayerMatrix4x4.getD (y % matrixSize) []).getD (x % matrixSize) 0
  ((value : ℚ) / 16) * 255

/-- RGB triple as returned by `hexToRgb`. -/
structure Rgb where
  r : Nat
  g : Nat
  b : Nat
deriving DecidableEq, Repr

/-- One character of the class `[a-f\d]` (case-insensitive regex, so
`a`-`f`, `A`-`F`, `0`-`9`). -/
def isHexDigit (c : Char) : Bool :=
  ('0' ≤ c && c ≤ '9') || ('a' ≤ c && c ≤ 'f') || ('A' ≤ c && c ≤ 'F')

/-- Value of a single hex digit, as `parseInt(_, 16)` assigns it. -/
def hexDigitVal (c : Char) : Nat :=
  if '0' ≤ c && c ≤ '9' then c.toNat - '0'.toNat
  else if 'a' ≤ c && c ≤ 'f' then c.toNat - 'a'.toNat + 10
  else if 'A' ≤ c && c ≤ 'F' then c.toNat - 'A'.toNat + 10
  else 0

/-- The optional leading `#` of the regex (`#?`): drop a `#` head when
present. -/
def stripHash (cs : List Char) : List Char :=
  if cs.head? = some '#' then cs.tail else cs

/-- The regex `/^#?([a-f\d]{2})([a-f\d]{2})([a-f\d]{2})$/i` applied to the
character list of the input: an optional leading `#` followed by exactly
six hex digits. Returns the six captured digit characters. -/
def hexMatch (cs : List Char) : Option (List Char) :=
  match stripHash cs with
  | [a, b, c, d, e, f] =>
      if [a, b, c, d, e, f].all isHexDigit then some [a, b, c, d, e, f] else none
  | _ => none

/-- Function `hexToRgb` from `src/utils/dither.ts`: parse `#RRGGBB` (optional `#`,
case-insensitive); on no match return `{r: 0, g: 0, b: 0}`. -/
def hexToRgb (hex : String) : Rgb :=
  match hexMatch hex.toList with
  | some [a, b, c, d, e, f] =>
      { r := 16 * hexDigitVal a + hexDigitVal b
        g := 16 * hexDigitVal c + hexDigitVal d
        b := 16 * hexDigitVal e + hexDigitVal f }
  | _ => { r := 0, g := 0, b := 0 }

/-- The settings object (`RetroSettings` in `src/types.ts`). Numeric
fields are JavaScript numbers, modelled as ℚ; colors are hex strings. -/
structure RetroSettings where
  pixelSize : ℚ
  threshold : ℚ
  ditherAmount : ℚ
  contrast : ℚ
  colorDark : String
  colorLight : String
  invert : Bool
  gridLine : Bool
deriving DecidableEq, Repr

/-- One RGBA pixel (four bytes). -/
structure Rgba where
  r : Nat
  g : Nat
  b : Nat
  a : Nat
deriving DecidableEq, Repr

/-- The luminance / contrast / dither / threshold chain of the pixel loop
in `processFrame` (`src/components/RetroCanvas.tsx`), as a predicate:
`isLight = (luma + ditherOffset) > settings.threshold` where
`luma = (0.299 r + 0.587 g + 0.114 b - 128) * contrast + 128` and
`ditherOffset = (getBayerValue x y - 128) * ditherAmount`. -/
def pixelIsLight (s : RetroSettings) (x y r g b : Nat) : Bool :=
  let luma : ℚ := 0.299 * r + 0.587 * g + 0.114 * b
  let luma := (luma - 128) * s.contrast + 128
  let ditherVal := getBayerValue x y
  let ditherOffset := (ditherVal - 128) * s.ditherAmount
  decide (luma + ditherOffset > s.threshold)

/-- The body of the pixel loop of `processFrame` for one pixel `(x, y)`
with source channels `r`, `g`, `b`: palette resolution (with `invert`
swap), classification via `pixelIsLight`, palette mapping, alpha forced
to 255. -/
def processPixel (s : RetroSettings) (x y r g b : Nat) : Rgba :=
  let rgbDark := hexToRgb s.colorDark
  let rgbLight := hexToRgb s.colorLight
  let dark := if s.invert then rgbLight else rgbDark
  let light := if s.invert then rgbDark else rgbLight
  let isLight := pixelIsLight s x y r g b
  let finalColor := if isLight then light else dark
  { r := finalColor.r, g := finalColor.g, b := finalColor.b, a := 255 }

/-- The whole pixel loop of `processFrame` over the flat RGBA buffer of
the processing surface (`data`), as a function on byte indices: for
index `i`, pixel number `i / 4` sits at `x = (i / 4) % procW`,
`y = (i / 4) / procW` (the loop writes index `(y * procW + x) * 4 + c`),
and channel `c = i % 4` of the output pixel is produced. The loop reads
only the three source channels of the same pixel it writes, so the
in-place mutation of the buffer is equivalent to this pointwise map. -/
def processData (s : RetroSettings) (procW : Nat) (data : Nat → Nat) (i : Nat) : Nat :=
  let p := i / 4
  let x := p % procW
  let y := p / procW
  let out := processPixel s x y (data (4 * p)) (data (4 * p + 1)) (data (4 * p + 2))
  match i % 4 with
  | 0 => out.r
  | 1 => out.g
  | 2 => out.b
  | _ => out.a

/-- Count of pixels of the processing surface classified as light, over
the flat RGBA buffer `data` of a `procW × procH` surface (the loop of
`processFrame` visits exactly `x < procW`, `y < procH`, reading channels
at base index `(y * procW + x) * 4`). -/
def countLight (s : RetroSettings) (procW procH : Nat) (data : Nat → Nat) : Nat :=
  ((Finset.range procW ×ˢ Finset.range procH).filter fun p =>
    pixelIsLight s p.1 p.2
      (data ((p.2 * procW + p.1) * 4))
      (data ((p.2 * procW + p.1) * 4 + 1))
      (data ((p.2 * procW + p.1) * 4 + 2)) = true).card

/-- Processing-surface dimensions from `processFrame`:
`factor = Math.max(1, settings.pixelSize)`,
`procW = Math.max(1, Math.floor(displayW / factor))`, `procH` analogous.
`Math.floor` on a nonnegative rational is `Int.floor`. -/
def procDims (displayW displayH : Nat) (pixelSize : ℚ) : ℤ × ℤ :=
  let factor := max 1 pixelSize
  let procW := max 1 ⌊(displayW : ℚ) / factor⌋
  let procH := max 1 ⌊(displayH : ℚ) / factor⌋
  (procW, procH)

/-- The scanline loop of `processFrame`:
`for (let y = 0; y < displayH; y += 2)`, collecting the visited `y`. -/
def scanlineLoop (displayH y : Nat) : List Nat :=
  if y < displayH then y :: scanlineLoop displayH (y + 2) else []
termination_by displayH - y

/-- The rows darkened by the scanline overlay when `gridLine` is set. -/
def scanlineYs (displayH : Nat) : List Nat :=
  scanlineLoop displayH 0

/-- A `fillRect(x, y, w, h)` call of the scanline overlay. -/
structure FillRect where
  x : Nat
  y : Nat
  w : Nat
  h : Nat
deriving DecidableEq, Repr

/-- The sequence of `fillRect` calls issued by the scanline overlay:
`ctx.fillRect(0, y, displayW, 1)` for each visited row `y`. -/
def scanlineRects (displayW displayH : Nat) : List FillRect :=
  (scanlineYs displayH).map fun y => { x := 0, y := y, w := displayW, h := 1 }

/-- Composite operation set for the scanline overlay. -/
def scanlineCompositeOp : String := "overlay"

/-- Fill style of the scanline overlay. -/
def scanlineFillStyle : String := "rgba(0,0,0,0.3)"

/-- Source kind of an uploaded file (`FileType` in `src/types.ts`;
`none` models a cleared source). -/
inductive FileKind where
  | image
  | video
deriving DecidableEq, Repr

/-- Environment of one `processFrame` invocation: which guards of the
pass succeed. `canvasOk` models `canvasRef.current` and
`containerRef.current` being non-null, `ctxOk` the display
`getContext` result, `offCtxOk` the offscreen `getContext` result;
`videoWidth`/`videoHeight` and `naturalWidth`/`naturalHeight` are the
intrinsic source dimensions; `refOk` models the source element ref
being non-null. -/
structure PassEnv where
  fileType : Option FileKind
  canvasOk : Bool
  ctxOk : Bool
  refOk : Bool
  videoWidth : Nat
  videoHeight : Nat
  naturalWidth : Nat
  naturalHeight : Nat
  offCtxOk : Bool
deriving DecidableEq, Repr

/-- Observable outcome of one `processFrame` invocation: whether the
pixel loop ran (`wrote`) and whether `requestAnimationFrame` was called
to schedule the next pass (`rescheduled`). -/
structure PassResult where
  wrote : Bool
  rescheduled : Bool
deriving DecidableEq, Repr

/-- Control flow of `processFrame` (`src/components/RetroCanvas.tsx`),
guard by guard, in source order:
return on null canvas/container; return on null display context;
for a video source, reschedule-and-return when `videoWidth === 0`;
for an image source, return when `naturalWidth === 0`;
return when no source or `sourceW === 0` or `sourceH === 0`;
return when the offscreen context is null (note: before any reschedule);
otherwise run the pixel loop, then reschedule iff the file is a video. -/
def processPassCtl (e : PassEnv) : PassResult :=
  if !e.canvasOk then { wrote := false, rescheduled := false }
  else if !e.ctxOk then { wrote := false, rescheduled := false }
  else
    match e.fileType with
    | some FileKind.video =>
        if !e.refOk then { wrote := false, rescheduled := false }
        else if e.videoWidth = 0 then { wrote := false, rescheduled := true }
        else if e.videoWidth = 0 ∨ e.videoHeight = 0 then
          { wrote := false, rescheduled := false }
        else if !e.offCtxOk then { wrote := false, rescheduled := false }
        else { wrote := true, rescheduled := true }
    | some FileKind.image =>
        if !e.refOk then { wrote := false, rescheduled := false }
        else if e.naturalWidth = 0 then { wrote := false, rescheduled := false }
        else if e.naturalWidth = 0 ∨ e.naturalHeight = 0 then
          { wrote := false, rescheduled := false }
        else if !e.offCtxOk then { wrote := false, rescheduled := false }
        else { wrote := true, rescheduled := false }
    | none => { wrote := false, rescheduled := false }

/-- Intrinsic source width of a pass, as `processFrame` assigns
`sourceW` (`videoWidth` for a video, `naturalWidth` for an image, 0 when
no source). -/
def sourceW (e : PassEnv) : Nat :=
  match e.fileType with
  | some FileKind.video => e.videoWidth
  | some FileKind.image => e.naturalWidth
  | none => 0

/-- Intrinsic source height of a pass, as `processFrame` assigns
`sourceH`. -/
def sourceH (e : PassEnv) : Nat :=
  match e.fileType with
  | some FileKind.video => e.videoHeight
  | some FileKind.image => e.naturalHeight
  | none => 0

/-- A pass on a ready 2×2 video source whose offscreen 2D context cannot
be retrieved. -/
def offCtxFailEnv : PassEnv :=
  { fileType := some FileKind.video, canvasOk := true, ctxOk := true,
    refOk := true, videoWidth := 2, videoHeight := 2,
    naturalWidth := 0, naturalHeight := 0, offCtxOk := false }

/-- A pass on a ready 3×1 video source whose offscreen 2D context cannot
be retrieved. -/
def offCtxFailEnv2 : PassEnv :=
  { fileType := some FileKind.video, canvasOk := true, ctxOk := true,
    refOk := true, videoWidth := 3, videoHeight := 1,
    naturalWidth := 0, naturalHeight := 0, offCtxOk := false }

/-- A pass on a video source reporting nonzero intrinsic width but zero
intrinsic height, with every surface available. -/
def zeroHeightEnv : PassEnv :=
  { fileType := some FileKind.video, canvasOk := true, ctxOk := true,
    refOk := true, videoWidth := 1, videoHeight := 0,
    naturalWidth := 0, naturalHeight := 0, offCtxOk := true }

/-- A pass on a video source that is not yet ready (zero intrinsic
dimensions), with the display surface available. -/
def notReadyEnv : PassEnv :=
  { fileType := some FileKind.video, canvasOk := true, ctxOk := true,
    refOk := true, videoWidth := 0, videoHeight := 0,
    naturalWidth := 0, naturalHeight := 0, offCtxOk := true }

/-- State of the animation-frame scheduling around `processFrame`:
`pending` is the handle of the callback currently queued with the host
scheduler (at most one exists, since each pass requests at most one
continuation), `reqRef` is `requestRef.current`, `next` is the next
handle the host will hand out (browser handles are nonzero), and `ran`
counts executed passes. -/
structure SchedState where
  pending : Option Nat
  reqRef : Option Nat
  next : Nat
  ran : Nat
deriving DecidableEq, Repr

/-- The host fires the queued callback, if one is queued: the pass runs
(`ran` grows) and — continuous-source path — its tail
`requestRef.current = requestAnimationFrame(processFrame)` queues a
fresh handle and stores it in `requestRef.current`. With nothing
queued, nothing runs. -/
def fireTick (s : SchedState) : SchedState :=
  match s.pending with
  | some _ =>
      { pending := some s.next, reqRef := some s.next,
        next := s.next + 1, ran := s.ran + 1 }
  | none => s

/-- The effect cleanup of `RetroCanvas` (run on source change, settings
change or unmount):
`if (requestRef.current) cancelAnimationFrame(requestRef.current)` —
the stored handle, when truthy (nonzero), is cancelled, i.e. removed
from the host queue if still queued. -/
def cleanupEffect (s : SchedState) : SchedState :=
  match s.reqRef with
  | some h =>
      if h = 0 then s
      else { s with pending := if s.pending = some h then none else s.pending }
  | none => s

/-- Invariant maintained by the scheduling code: every call site of
`requestAnimationFrame` immediately stores the returned handle in
`requestRef.current`, so the queued handle (when one exists) is exactly
the stored one, and handles are nonzero. -/
def SchedInv (s : SchedState) : Prop :=
  (match s.pending with
   | some h => s.reqRef = some h ∧ 0 < h
   | none => True) ∧ 0 < s.next

/-- A concrete settings snapshot (the application defaults in
`src/unnamed/part_000`, `DEFAULT_SETTINGS`), used to instantiate
universally quantified theorems. -/
def sampleSettings : RetroSettings :=
  { pixelSize := 6
    threshold := 110
    ditherAmount := 0.25
    contrast := 1.1
    colorDark := "#1a1a14"
    colorLight := "#e6e0d4"
    invert := false
    gridLine := false }

/-- A concrete source buffer: every byte reads 200 (a light uniform
frame). -/
def sampleData : Nat → Nat := fun _ => 200

/-! ## Theorems -/

/-- Matching lemma: `hexMatch` succeeds exactly on an optional leading `#` followed by
exactly six (case-insensitive) hex digits, returning those digits. -/
theorem hexMatch_some_iff (cs l : List Char) :
    hexMatch cs = some l ↔
      ∃ a b c d e f : Char,
        l = [a, b, c, d, e, f] ∧
        (cs = [a, b, c, d, e, f] ∨ cs = '#' :: [a, b, c, d, e, f]) ∧
        [a, b, c, d, e, f].all isHexDigit = true := by
  constructor
  · intro h
    unfold hexMatch at h
    split at h
    case _ a b c d e f heq =>
      split at h
      case isTrue hall =>
        refine ⟨a, b, c, d, e, f, by simpa using h.symm, ?_, hall⟩
        by_cases hh : cs.head? = some '#'
        · rcases cs with _ | ⟨c0, t⟩
          · simp at hh
          · simp at hh
            subst hh
            right
            simp [stripHash] at heq
            rw [heq]
        · left
          simpa [stripHash, hh] using heq
      case isFalse => exact absurd h (by simp)
    case _ => exact absurd h (by simp)
  · rintro ⟨a, b, c, d, e, f, rfl, hshape, hall⟩
    have hhash : isHexDigit '#' = false := by decide
    rcases hshape with rfl | rfl
    · have ha : a ≠ '#' := by
        intro hEq
        rw [hEq] at hall
        simp [hhash] at hall
      unfold hexMatch
      rw [show stripHash [a, b, c, d, e, f] = [a, b, c, d, e, f] by
        simp [stripHash, ha]]
      simp [hall]
    · unfold hexMatch
      rw [show stripHash ('#' :: [a, b, c, d, e, f]) = [a, b, c, d, e, f] by
        simp [stripHash]]
      simp [hall]

/-- C2: `getBayerValue x y` equals `bayerMatrix4x4[y % 4][x % 4] / 16 * 255`
with the fixed row-major matrix `[[0,8,2,10],[12,4,14,6],[3,11,1,9],
[15,7,13,5]]`; the result always lies in `[0, 255)`; and over one full
4×4 tile, row-major, the 16 results are exactly the matrix values scaled
by `255/16`, each appearing once. -/
theorem getBayerValue_spec :
    (∀ x y : Nat,
      getBayerValue x y
          = ((bayerMatrix4x4.getD (y % 4) []).getD (x % 4) 0 : ℚ) / 16 * 255
        ∧ 0 ≤ getBayerValue x y ∧ getBayerValue x y < 255)
    ∧ ((List.range 4).flatMap fun y => (List.range 4).map fun x => getBayerValue x y)
        = [0, 8, 2, 10, 12, 4, 14, 6, 3, 11, 1, 9, 15, 7, 13, 5].map
            (fun v => (v : ℚ) / 16 * 255) := by
  refine ⟨fun x y => ⟨rfl, ?_⟩, ?_⟩
  · have hx : x % 4 < 4 := Nat.mod_lt _ (by norm_num)
    have hy : y % 4 < 4 := Nat.mod_lt _ (by norm_num)
    unfold getBayerValue
    interval_cases hx2 : x % 4 <;> interval_cases hy2 : y % 4 <;>
      simp only [hx2, hy2] <;> norm_num [bayerMatrix4x4]
  · norm_num [getBayerValue, bayerMatrix4x4, List.range_succ]

/-- C3: `hexToRgb` parses a string that is exactly six hex digits after
an optional leading `#` into the three two-digit channel values, returns
`{r := 0, g := 0, b := 0}` on every other input (it is a total function,
so it never throws), and satisfies the three concrete examples. -/
theorem hexToRgb_spec :
    (∀ (s : String) (a b c d e f : Char),
      (s.toList = [a, b, c, d, e, f] ∨ s.toList = '#' :: [a, b, c, d, e, f]) →
      [a, b, c, d, e, f].all isHexDigit = true →
      hexToRgb s = { r := 16 * hexDigitVal a + hexDigitVal b
                     g := 16 * hexDigitVal c + hexDigitVal d
                     b := 16 * hexDigitVal e + hexDigitVal f })
    ∧ (∀ s : String,
        (¬ ∃ a b c d e f : Char,
          (s.toList = [a, b, c, d, e, f] ∨ s.toList = '#' :: [a, b, c, d, e, f]) ∧
          [a, b, c, d, e, f].all isHexDigit = true) →
        hexToRgb s = { r := 0, g := 0, b := 0 })
    ∧ hexToRgb "#FF0000" = { r := 255, g := 0, b := 0 }
    ∧ hexToRgb "00ff00" = { r := 0, g := 255, b := 0 }
    ∧ hexToRgb "bad" = { r := 0, g := 0, b := 0 } := by
  refine ⟨?_, ?_, by decide, by decide, by decide⟩
  · intro s a b c d e f hshape hall
    have hm : hexMatch s.toList = some [a, b, c, d, e, f] :=
      (hexMatch_some_iff _ _).mpr ⟨a, b, c, d, e, f, rfl, hshape, hall⟩
    unfold hexToRgb
    rw [hm]
  · intro s hno
    unfold hexToRgb
    cases hm : hexMatch s.toList with
    | none => rfl
    | some l =>
        obtain ⟨a, b, c, d, e, f, _, hshape, hall⟩ := (hexMatch_some_iff _ _).mp hm
        exact absurd ⟨a, b, c, d, e, f, hshape, hall⟩ hno

/-- Witness for C3: the parsing branch at `"#1a2b3c"` and the fallback
branch at `"nope"`, both via `hexToRgb_spec`. -/
theorem hexToRgb_spec_witness :
    hexToRgb "#1a2b3c" = { r := 26, g := 43, b := 60 } ∧
    hexToRgb "nope" = { r := 0, g := 0, b := 0 } := by
  constructor
  · have h := hexToRgb_spec.1 "#1a2b3c" '1' 'a' '2' 'b' '3' 'c'
      (Or.inr (by decide)) (by decide)
    rw [h]; decide
  · refine hexToRgb_spec.2.1 "nope" ?_
    rintro ⟨a, b, c, d, e, f, h | h, -⟩ <;>
      · have hlen := congrArg List.length h
        simp at hlen

/-- C1: for every pass and every pixel `(x, y)` of the processing
surface (byte base index `i = (y * procW + x) * 4` of the RGBA buffer)
with source channels `r`, `g`, `b`: the output pixel is the effective
light color when
`((0.299 r + 0.587 g + 0.114 b - 128) * contrast + 128) +
(bayerOffset(x, y) - 128) * ditherAmount > threshold`, and the
effective dark color otherwise, with output alpha 255 regardless of the
source alpha byte. -/
theorem processData_spec (s : RetroSettings) (procW procH : Nat)
    (data : Nat → Nat) (x y : Nat) (hx : x < procW) (hy : y < procH) :
    let i := (y * procW + x) * 4
    let r : Nat := data i
    let g : Nat := data (i + 1)
    let b : Nat := data (i + 2)
    let eff : Rgb :=
      if ((0.299 * (r : ℚ) + 0.587 * (g : ℚ) + 0.114 * (b : ℚ) - 128) * s.contrast + 128)
          + (getBayerValue x y - 128) * s.ditherAmount > s.threshold
      then (if s.invert then hexToRgb s.colorDark else hexToRgb s.colorLight)
      else (if s.invert then hexToRgb s.colorLight else hexToRgb s.colorDark)
    processData s procW data i = eff.r
      ∧ processData s procW data (i + 1) = eff.g
      ∧ processData s procW data (i + 2) = eff.b
      ∧ processData s procW data (i + 3) = 255 := by
  intro i r g b eff
  have heff : eff =
      if ((0.299 * ((data i : Nat) : ℚ) + 0.587 * ((data (i + 1) : Nat) : ℚ)
            + 0.114 * ((data (i + 2) : Nat) : ℚ) - 128) * s.contrast + 128)
          + (getBayerValue x y - 128) * s.ditherAmount > s.threshold
      then (if s.invert then hexToRgb s.colorDark else hexToRgb s.colorLight)
      else (if s.invert then hexToRgb s.colorLight else hexToRgb s.colorDark) := rfl
  have hW : 0 < procW := Nat.pos_of_ne_zero (by rintro rfl; exact Nat.not_lt_zero x hx)
  have hp0 : i / 4 = y * procW + x := by omega
  have hp1 : (i + 1) / 4 = y * procW + x := by omega
  have hp2 : (i + 2) / 4 = y * procW + x := by omega
  have hp3 : (i + 3) / 4 = y * procW + x := by omega
  have hc0 : i % 4 = 0 := by omega
  have hc1 : (i + 1) % 4 = 1 := by omega
  have hc2 : (i + 2) % 4 = 2 := by omega
  have hc3 : (i + 3) % 4 = 3 := by omega
  have hxmod : (y * procW + x) % procW = x := by
    rw [Nat.add_comm, Nat.add_mul_mod_self_right, Nat.mod_eq_of_lt hx]
  have hydiv : (y * procW + x) / procW = y := by
    rw [Nat.add_comm, Nat.add_mul_div_right _ _ hW, Nat.div_eq_of_lt hx, Nat.zero_add]
  have hread : 4 * (y * procW + x) = i := by omega
  have hbody : ∀ j : Nat, j / 4 = y * procW + x →
      processData s procW data j
        = (match j % 4 with
           | 0 => (processPixel s x y (data i) (data (i + 1)) (data (i + 2))).r
           | 1 => (processPixel s x y (data i) (data (i + 1)) (data (i + 2))).g
           | 2 => (processPixel s x y (data i) (data (i + 1)) (data (i + 2))).b
           | _ => (processPixel s x y (data i) (data (i + 1)) (data (i + 2))).a) := by
    intro j hj
    unfold processData
    simp only [hj]
    rw [hxmod, hydiv, hread]
  have hout : processPixel s x y (data i) (data (i + 1)) (data (i + 2))
      = { r := eff.r, g := eff.g, b := eff.b, a := 255 } := by
    rw [heff]
    unfold processPixel pixelIsLight
    simp only [decide_eq_true_eq]
  refine ⟨?_, ?_, ?_, ?_⟩
  · rw [hbody i hp0, hc0, hout]
  · rw [hbody (i + 1) hp1, hc1, hout]
  · rw [hbody (i + 2) hp2, hc2, hout]
  · rw [hbody (i + 3) hp3, hc3, hout]

/-- Witness for C1: pixel `(1, 2)` of a `3 × 4` processing surface whose
bytes all read 200, under the default settings: classified light
(`207.2 + 11.828125 > 110`), so the output bytes are the light color
`#e6e0d4` with alpha 255. -/
theorem processData_spec_witness :
    processData sampleSettings 3 sampleData 28 = 230 ∧
    processData sampleSettings 3 sampleData 29 = 224 ∧
    processData sampleSettings 3 sampleData 30 = 212 ∧
    processData sampleSettings 3 sampleData 31 = 255 := by
  obtain ⟨h1, h2, h3, h4⟩ :=
    processData_spec sampleSettings 3 4 sampleData 1 2 (by norm_num) (by norm_num)
  refine ⟨?_, ?_, ?_, ?_⟩
  · rw [show (28 : Nat) = (2 * 3 + 1) * 4 from by norm_num, h1]
    norm_num [sampleSettings, sampleData, getBayerValue, bayerMatrix4x4]
    decide
  · rw [show (29 : Nat) = (2 * 3 + 1) * 4 + 1 from by norm_num, h2]
    norm_num [sampleSettings, sampleData, getBayerValue, bayerMatrix4x4]
    decide
  · rw [show (30 : Nat) = (2 * 3 + 1) * 4 + 2 from by norm_num, h3]
    norm_num [sampleSettings, sampleData, getBayerValue, bayerMatrix4x4]
    decide
  · rw [show (31 : Nat) = (2 * 3 + 1) * 4 + 3 from by norm_num, h4]

/-- C5: with `invert = true`, every pixel receives exactly the color the
`invert = false` run (all other settings and source identical) would
assign to the other palette entry — i.e. the run coincides with the
`invert = false` run on the palette with `colorDark` and `colorLight`
swapped — and the light/dark classification of every pixel is identical
in the two runs. -/
theorem processPixel_invert_spec (s : RetroSettings) (x y r g b : Nat) :
    processPixel { s with invert := true } x y r g b
        = processPixel
            { s with invert := false, colorDark := s.colorLight,
                     colorLight := s.colorDark } x y r g b
    ∧ pixelIsLight { s with invert := true } x y r g b
        = pixelIsLight { s with invert := false } x y r g b := by
  constructor <;> simp [processPixel, pixelIsLight]

/-- C6: raising the threshold, all else fixed, never increases the
number of pixels classified as light. -/
theorem countLight_threshold_mono (s : RetroSettings) (t : ℚ)
    (procW procH : Nat) (data : Nat → Nat) (h : s.threshold ≤ t) :
    countLight { s with threshold := t } procW procH data
      ≤ countLight s procW procH data := by
  unfold countLight
  apply Finset.card_le_card
  intro p hp
  simp only [Finset.mem_filter] at hp ⊢
  refine ⟨hp.1, ?_⟩
  have hl := hp.2
  simp only [pixelIsLight, decide_eq_true_eq] at hl ⊢
  exact lt_of_le_of_lt h hl

/-- Witness for C6: the default settings (threshold 110) against
threshold 200 on a 2×2 uniform light frame. -/
theorem countLight_threshold_mono_witness :
    sampleSettings.threshold ≤ 200 ∧
    countLight { sampleSettings with threshold := 200 } 2 2 sampleData
      ≤ countLight sampleSettings 2 2 sampleData := by
  have hth : sampleSettings.threshold ≤ 200 := by norm_num [sampleSettings]
  exact ⟨hth, countLight_threshold_mono sampleSettings 200 2 2 sampleData hth⟩

/-- C8: the processing-surface dimensions are
`procW = max(1, floor(displayW / max(1, pixelSize)))` (and analogously
for `procH`); under `pixelSize ≥ 1` this coincides with
`max(1, floor(displayW / pixelSize))`, and both dimensions are at
least 1. -/
theorem procDims_spec (displayW displayH : Nat) (pixelSize : ℚ)
    (h : 1 ≤ pixelSize) :
    procDims displayW displayH pixelSize
        = (max 1 ⌊(displayW : ℚ) / max 1 pixelSize⌋,
           max 1 ⌊(displayH : ℚ) / max 1 pixelSize⌋)
    ∧ procDims displayW displayH pixelSize
        = (max 1 ⌊(displayW : ℚ) / pixelSize⌋, max 1 ⌊(displayH : ℚ) / pixelSize⌋)
    ∧ 1 ≤ (procDims displayW displayH pixelSize).1
    ∧ 1 ≤ (procDims displayW displayH pixelSize).2 := by
  have hm : max 1 pixelSize = pixelSize := max_eq_right h
  refine ⟨rfl, ?_, ?_, ?_⟩
  · unfold procDims
    rw [hm]
  · show 1 ≤ max 1 ⌊(displayW : ℚ) / max 1 pixelSize⌋
    exact le_max_left _ _
  · show 1 ≤ max 1 ⌊(displayH : ℚ) / max 1 pixelSize⌋
    exact le_max_left _ _

/-- Witness for C8: default `pixelSize = 6` on a 300×200 display surface
gives a 50×33 processing surface. -/
theorem procDims_spec_witness :
    (1 : ℚ) ≤ 6 ∧ procDims 300 200 6 = (50, 33) := by
  refine ⟨by norm_num, ?_⟩
  have h := (procDims_spec 300 200 6 (by norm_num)).2.1
  rw [h]
  norm_num

/-- Auxiliary characterization of the scanline `for` loop: starting at
`y0`, it visits exactly the rows of the same parity as `y0` in
`[y0, displayH)`. -/
theorem scanlineLoop_mem (fuel displayH y0 y : Nat) (hf : displayH - y0 ≤ fuel) :
    y ∈ scanlineLoop displayH y0 ↔ y0 ≤ y ∧ y < displayH ∧ (y - y0) % 2 = 0 := by
  induction fuel generalizing y0 with
  | zero =>
      unfold scanlineLoop
      have hlt : ¬ y0 < displayH := by omega
      simp only [if_neg hlt, List.not_mem_nil, false_iff]
      rintro ⟨h1, h2, h3⟩
      omega
  | succ n ih =>
      unfold scanlineLoop
      by_cases hlt : y0 < displayH
      · simp only [if_pos hlt, List.mem_cons]
        rw [ih (y0 + 2) (by omega)]
        omega
      · simp only [if_neg hlt, List.not_mem_nil, false_iff]
        rintro ⟨h1, h2, h3⟩
        omega

/-- C10: with `gridLine` enabled, the scanline overlay issues exactly
one `fillRect(0, y, displayW, 1)` (a band 1 pixel tall and `displayW`
wide) for each even row `y < displayH`, with `overlay` compositing at
`rgba(0,0,0,0.3)`; whenever the output has any rows the top row `y = 0`
is darkened, and odd rows get no band. -/
theorem scanline_spec :
    (∀ displayH y : Nat,
        y ∈ scanlineYs displayH ↔ y < displayH ∧ y % 2 = 0)
    ∧ (∀ displayW displayH : Nat,
        scanlineRects displayW displayH
          = (scanlineYs displayH).map fun y =>
              { x := 0, y := y, w := displayW, h := 1 })
    ∧ (∀ displayH : Nat, 0 < displayH → 0 ∈ scanlineYs displayH)
    ∧ scanlineCompositeOp = "overlay"
    ∧ scanlineFillStyle = "rgba(0,0,0,0.3)" := by
  have hmem : ∀ displayH y : Nat,
      y ∈ scanlineYs displayH ↔ y < displayH ∧ y % 2 = 0 := by
    intro displayH y
    unfold scanlineYs
    rw [scanlineLoop_mem displayH displayH 0 y (by omega)]
    omega
  refine ⟨hmem, fun _ _ => rfl, ?_, rfl, rfl⟩
  intro displayH hpos
  rw [hmem]
  omega

/-- Witness for C10: with a 5-row display the darkened rows are exactly
0, 2, 4, and the top row is among them. -/
theorem scanline_spec_witness :
    (2 ∈ scanlineYs 5 ↔ 2 < 5 ∧ 2 % 2 = 0) ∧ (0 < 5 ∧ 0 ∈ scanlineYs 5) := by
  exact ⟨scanline_spec.1 5 2, by norm_num, scanline_spec.2.2.1 5 (by norm_num)⟩

/-- Refutation of C4 as stated: on a ready video source whose offscreen
2D context cannot be retrieved, the pass performs no pixel writes but
also does NOT schedule a next pass — `processFrame` returns at
`if (!offCtx) return;`, before the tail `requestAnimationFrame` call. -/
theorem processPassCtl_offCtx_counterexample :
    offCtxFailEnv.fileType = some FileKind.video
    ∧ offCtxFailEnv.offCtxOk = false
    ∧ (processPassCtl offCtxFailEnv).wrote = false
    ∧ (processPassCtl offCtxFailEnv).rescheduled = false := by
  decide

/-- C4 amended: on a continuous (video) source with display canvas and
context available, intrinsic dimensions nonzero and the offscreen
context unavailable, the pass performs no pixel writes and no error is
escalated (the model is a total function), but no next pass is
scheduled from this pass: the early return skips the tail reschedule. -/
theorem processPassCtl_offCtx_spec (e : PassEnv)
    (hft : e.fileType = some FileKind.video)
    (hc : e.canvasOk = true) (hx : e.ctxOk = true) (hr : e.refOk = true)
    (hw : e.videoWidth ≠ 0) (hh : e.videoHeight ≠ 0)
    (ho : e.offCtxOk = false) :
    (processPassCtl e).wrote = false
    ∧ (processPassCtl e).rescheduled = false := by
  unfold processPassCtl
  rw [hft]
  simp [hc, hx, hr, hw, hh, ho]

/-- Witness for the amended C4, at a 3×1 ready video frame. -/
theorem processPassCtl_offCtx_spec_witness :
    (processPassCtl offCtxFailEnv2).wrote = false
    ∧ (processPassCtl offCtxFailEnv2).rescheduled = false :=
  processPassCtl_offCtx_spec offCtxFailEnv2 rfl rfl rfl rfl
    (by decide) (by decide) rfl

/-- Refutation of C7 as stated: a video source reporting nonzero width
but zero height makes the pass return at the
`sourceW === 0 || sourceH === 0` guard, before the tail reschedule, so
no next pass is scheduled even though a source dimension is zero. -/
theorem processPassCtl_zeroHeight_counterexample :
    zeroHeightEnv.fileType = some FileKind.video
    ∧ sourceH zeroHeightEnv = 0
    ∧ (processPassCtl zeroHeightEnv).wrote = false
    ∧ (processPassCtl zeroHeightEnv).rescheduled = false := by
  decide

/-- C7 amended: whenever the source's intrinsic width or height is zero
the pass performs no pixel writes and does not throw (the model is a
total function); for a continuous (video) source with the display
canvas and context available, a next pass is scheduled when the
intrinsic WIDTH is zero (the not-yet-ready check `videoWidth === 0`);
with nonzero width and zero height the pass returns without
rescheduling. -/
theorem processPassCtl_zeroDim_spec (e : PassEnv)
    (hdim : sourceW e = 0 ∨ sourceH e = 0) :
    (processPassCtl e).wrote = false
    ∧ (e.fileType = some FileKind.video → e.canvasOk = true →
        e.ctxOk = true → e.refOk = true → e.videoWidth = 0 →
        (processPassCtl e).rescheduled = true) := by
  obtain ⟨ft, co, cx, ro, vw, vh, nw, nh, oo⟩ := e
  constructor
  · rcases ft with _ | k
    · cases co <;> cases cx <;> simp [processPassCtl]
    · cases k
      · simp only [sourceW, sourceH] at hdim
        cases co <;> cases cx <;> cases ro <;>
          rcases hdim with h | h <;>
            by_cases hvw : nw = 0 <;>
              simp_all [processPassCtl]
      · simp only [sourceW, sourceH] at hdim
        cases co <;> cases cx <;> cases ro <;>
          rcases hdim with h | h <;>
            by_cases hvw : vw = 0 <;>
              simp_all [processPassCtl]
  · intro hft hc hx hr hw
    simp only [Option.some.injEq] at hft
    subst hft hc hx hr hw
    simp [processPassCtl]

/-- Witness for the amended C7: a not-yet-ready video source (both
dimensions zero): no pixel writes, and the next pass is scheduled. -/
theorem processPassCtl_zeroDim_spec_witness :
    sourceW notReadyEnv = 0
    ∧ (processPassCtl notReadyEnv).wrote = false
    ∧ (processPassCtl notReadyEnv).rescheduled = true := by
  have h := processPassCtl_zeroDim_spec notReadyEnv (Or.inl rfl)
  exact ⟨rfl, h.1, h.2 rfl rfl rfl rfl rfl⟩

/-- The scheduling invariant holds after a pass fires. -/
theorem schedInv_fireTick (s : SchedState) (h : SchedInv s) :
    SchedInv (fireTick s) := by
  obtain ⟨p, rr, nx, rn⟩ := s
  obtain ⟨h1, h2⟩ := h
  cases p with
  | none => exact ⟨h1, h2⟩
  | some k => exact ⟨⟨rfl, h2⟩, Nat.succ_pos nx⟩

/-- The scheduling invariant holds after the effect cleanup runs. -/
theorem schedInv_cleanupEffect (s : SchedState) (h : SchedInv s) :
    SchedInv (cleanupEffect s) := by
  obtain ⟨p, rr, nx, rn⟩ := s
  obtain ⟨h1, h2⟩ := h
  cases rr with
  | none => exact ⟨h1, h2⟩
  | some k =>
      cases p with
      | none =>
          by_cases hk : k = 0 <;> simp_all [SchedInv, cleanupEffect]
      | some j =>
          obtain ⟨hkj, hj⟩ := h1
          have hjk : k = j := by injection hkj
          subst hjk
          have hk : ¬ k = 0 := by omega
          simp_all [SchedInv, cleanupEffect]

/-- C9: once the effect cleanup has run (source cleared or changed, or
view unmounted), the pending animation-frame continuation is cancelled:
nothing remains queued, and any number of subsequent host ticks
executes no further pass (`ran` stays constant), so no stale pass ever
runs after teardown. Holds under the invariant that every
`requestAnimationFrame` handle is stored in `requestRef.current`
immediately, which the code maintains at all three call sites. -/
theorem sched_no_pass_after_cleanup (s : SchedState) (hinv : SchedInv s) :
    (cleanupEffect s).pending = none
    ∧ ∀ n : Nat, (fireTick^[n] (cleanupEffect s)).ran = s.ran := by
  have hpend : (cleanupEffect s).pending = none := by
    obtain ⟨p, rr, nx, rn⟩ := s
    obtain ⟨h1, h2⟩ := hinv
    cases rr with
    | none =>
        cases p with
        | none => rfl
        | some j => exact absurd h1.1 (by simp)
    | some k =>
        cases p with
        | none =>
            by_cases hk : k = 0 <;> simp [cleanupEffect, hk]
        | some j =>
            obtain ⟨hkj, hj⟩ := h1
            have hjk : k = j := by injection hkj
            subst hjk
            have hk : ¬ k = 0 := by omega
            simp [cleanupEffect, hk]
  have hran : (cleanupEffect s).ran = s.ran := by
    obtain ⟨p, rr, nx, rn⟩ := s
    cases rr with
    | none => rfl
    | some k =>
        by_cases hk : k = 0 <;> simp [cleanupEffect, hk]
  have hfix : fireTick (cleanupEffect s) = cleanupEffect s := by
    unfold fireTick
    rw [hpend]
  refine ⟨hpend, ?_⟩
  intro n
  induction n with
  | zero => simpa using hran
  | succ m ih => rw [Function.iterate_succ_apply, hfix]; exact ih

/-- Witness for C9: a state with pass 1 queued and recorded, five passes
already run: after cleanup nothing is pending and three further ticks
run no pass. -/
theorem sched_no_pass_after_cleanup_witness :
    (cleanupEffect { pending := some 1, reqRef := some 1, next := 2, ran := 5 }).pending
        = none
    ∧ (fireTick^[3] (cleanupEffect
        { pending := some 1, reqRef := some 1, next := 2, ran := 5 })).ran = 5 := by
  have h := sched_no_pass_after_cleanup
    { pending := some 1, reqRef := some 1, next := 2, ran := 5 }
    ⟨⟨rfl, by norm_num⟩, by norm_num⟩
  exact ⟨h.1, h.2 3⟩

end RetroBit
